import Mathlib

/-!
Verification of the k-orc port controller and the neutrontags tag
reconciliation primitive.

Sources embedded:
- `internal/controllers/generic/neutrontags` (`ReconcileTags`): the
  convergent tag-set reconciliation primitive.
- `internal/controllers/port/controller.go`: the port controller's
  dependency relations, extractors, watch registrations and
  `SetupWithManager`.

Go sets (`k8s.io/utils/set`, backed by a string-keyed map) are embedded as
duplicate-free lists with membership-based operations; Go's `errors.Join`
becomes a list of the non-nil errors; the callback-based external call
`ReplaceAllAttributesTags` is embedded by threading an explicit call log
and an injected error outcome.
-/

namespace OrcPort

/-! ## Tag sets (k8s.io/utils/set.Set[string]) -/

/-- `set.Insert`: insert a string into a set. The set is represented as a
duplicate-free list; insertion of a present element is a no-op. -/
def setInsert (s : List String) (x : String) : List String :=
  if x ∈ s then s else s ++ [x]

/-- `set.New(items...)`: build a set from a list of strings, dropping
duplicates. -/
def setNew (l : List String) : List String :=
  l.foldl setInsert []

/-- `set.Equal`: two sets are equal when they have the same members. -/
def setEqual (a b : List String) : Bool :=
  decide (∀ x ∈ a, x ∈ b) && decide (∀ x ∈ b, x ∈ a)

/-- Lexicographic comparison of character sequences, embedding Go's
built-in string ordering used by the sort inside `set.SortedList`. -/
def charsLe : List Char → List Char → Bool
  | [], _ => true
  | _ :: _, [] => false
  | a :: as, b :: bs =>
    if a.toNat = b.toNat then charsLe as bs
    else decide (a.toNat < b.toNat)

/-- Go's string ordering, as a relation on Lean strings. -/
def stringLe (a b : String) : Prop :=
  charsLe a.data b.data = true

instance : DecidableRel stringLe := fun a b => by
  unfold stringLe
  infer_instance

/-- `set.SortedList`: the members of the set as a sorted slice, in Go's
string order. -/
def setSortedList (s : List String) : List String :=
  s.insertionSort stringLe

theorem charsLe_total (a b : List Char) :
    charsLe a b = true ∨ charsLe b a = true := by
  induction a generalizing b with
  | nil => left; rfl
  | cons x xs ih =>
      cases b with
      | nil => right; rfl
      | cons y ys =>
          by_cases hxy : x.toNat = y.toNat
          · rcases ih ys with h | h
            · left; simp [charsLe, hxy, h]
            · right; simp [charsLe, hxy.symm, h]
          · rcases Nat.lt_or_ge x.toNat y.toNat with h | h
            · left; simp [charsLe, hxy, h]
            · have h2 : y.toNat < x.toNat := Nat.lt_of_le_of_ne h (Ne.symm hxy)
              right; simp [charsLe, Ne.symm hxy, h2]

theorem charsLe_trans (a b c : List Char) (h1 : charsLe a b = true)
    (h2 : charsLe b c = true) : charsLe a c = true := by
  induction a generalizing b c with
  | nil => rfl
  | cons x xs ih =>
      cases b with
      | nil => simp [charsLe] at h1
      | cons y ys =>
          cases c with
          | nil => simp [charsLe] at h2
          | cons z zs =>
              by_cases hxy : x.toNat = y.toNat
              · simp only [charsLe] at h1
                rw [if_pos hxy] at h1
                by_cases hyz : y.toNat = z.toNat
                · simp only [charsLe] at h2
                  rw [if_pos hyz] at h2
                  simp [charsLe, hxy.trans hyz, ih ys zs h1 h2]
                · simp only [charsLe] at h2
                  rw [if_neg hyz, decide_eq_true_eq] at h2
                  have hxz : x.toNat < z.toNat := hxy ▸ h2
                  simp [charsLe, Nat.ne_of_lt hxz, hxz]
              · simp only [charsLe] at h1
                rw [if_neg hxy, decide_eq_true_eq] at h1
                by_cases hyz : y.toNat = z.toNat
                · have hxz : x.toNat < z.toNat := hyz ▸ h1
                  simp [charsLe, Nat.ne_of_lt hxz, hxz]
                · simp only [charsLe] at h2
                  rw [if_neg hyz, decide_eq_true_eq] at h2
                  have hxz : x.toNat < z.toNat := Nat.lt_trans h1 h2
                  simp [charsLe, Nat.ne_of_lt hxz, hxz]

theorem charsLe_antisymm (a b : List Char) (h1 : charsLe a b = true)
    (h2 : charsLe b a = true) : a = b := by
  induction a generalizing b with
  | nil =>
      cases b with
      | nil => rfl
      | cons y ys => simp [charsLe] at h2
  | cons x xs ih =>
      cases b with
      | nil => simp [charsLe] at h1
      | cons y ys =>
          by_cases hxy : x.toNat = y.toNat
          · simp only [charsLe] at h1 h2
            rw [if_pos hxy] at h1
            rw [if_pos hxy.symm] at h2
            have hx : x = y := Char.ext (UInt32.ext hxy)
            rw [hx, ih ys h1 h2]
          · simp only [charsLe] at h1 h2
            rw [if_neg hxy, decide_eq_true_eq] at h1
            rw [if_neg (Ne.symm hxy), decide_eq_true_eq] at h2
            exact absurd h1 (Nat.lt_asymm h2)

instance : IsTotal String stringLe :=
  ⟨fun a b => charsLe_total a.data b.data⟩

instance : IsTrans String stringLe :=
  ⟨fun a b c => charsLe_trans a.data b.data c.data⟩

instance : IsAntisymm String stringLe :=
  ⟨fun a b h1 h2 => by
    have h := charsLe_antisymm a.data b.data h1 h2
    cases a
    cases b
    exact congrArg String.mk h⟩

theorem mem_setInsert (s : List String) (x y : String) :
    y ∈ setInsert s x ↔ y ∈ s ∨ y = x := by
  unfold setInsert
  split
  · constructor
    · exact Or.inl
    · rintro (h | rfl) <;> assumption
  · simp

theorem nodup_setInsert (s : List String) (x : String) (h : s.Nodup) :
    (setInsert s x).Nodup := by
  unfold setInsert
  split
  · exact h
  · simpa [List.nodup_append] using ⟨h, by assumption⟩

theorem mem_setNew_aux (l acc : List String) (y : String) :
    y ∈ l.foldl setInsert acc ↔ y ∈ acc ∨ y ∈ l := by
  induction l generalizing acc with
  | nil => simp
  | cons a t ih =>
      simp only [List.foldl_cons, ih, mem_setInsert, List.mem_cons]
      tauto

theorem mem_setNew (l : List String) (y : String) :
    y ∈ setNew l ↔ y ∈ l := by
  unfold setNew
  rw [mem_setNew_aux]
  simp

theorem nodup_setNew (l : List String) : (setNew l).Nodup := by
  unfold setNew
  have aux : ∀ (t acc : List String), acc.Nodup → (t.foldl setInsert acc).Nodup := by
    intro t
    induction t with
    | nil => intro acc h; simpa using h
    | cons a t ih =>
        intro acc h
        exact ih _ (nodup_setInsert _ _ h)
  exact aux l [] List.nodup_nil

theorem setEqual_iff (a b : List String) :
    setEqual a b = true ↔ ∀ x, x ∈ a ↔ x ∈ b := by
  unfold setEqual
  simp only [Bool.and_eq_true, decide_eq_true_eq]
  constructor
  · rintro ⟨h₁, h₂⟩ x
    exact ⟨h₁ x, h₂ x⟩
  · intro h
    exact ⟨fun x hx => (h x).1 hx, fun x hx => (h x).2 hx⟩

/-! ## The tag reconciliation primitive (neutrontags.ReconcileTags) -/

/-- `progress.ReconcileStatus` as observed by ReconcileTags' caller:
`done` embeds the `nil` return, `needsRefresh` embeds
`progress.NeedsRefresh()`, `wrapError e` embeds `progress.WrapError(err)`. -/
inductive ReconcileStatus where
  | done
  | needsRefresh
  | wrapError (e : String)
deriving DecidableEq, Repr

/-- Result of one run of ReconcileTags: the returned status together with
the log of arguments passed to `ReplaceAllAttributesTags`, one entry per
external call issued. -/
structure TagReconcileOutcome where
  status : ReconcileStatus
  replaceCalls : List (List String)
deriving DecidableEq, Repr

/-- `neutrontags.ReconcileTags`: build the observed and spec tag sets,
and when they differ issue one `ReplaceAllAttributesTags` call with the
spec set in sorted order, returning `NeedsRefresh` on success and the
wrapped error on failure; when the sets are equal, make no call and
return nil. `replaceErr` injects the outcome of the external call. -/
def ReconcileTags (specTags observedTags : List String)
    (replaceErr : Option String) : TagReconcileOutcome :=
  let observedTagSet := setNew observedTags
  let specTagSet := setNew specTags
  if !(setEqual specTagSet observedTagSet) then
    let tags := setSortedList specTagSet
    match replaceErr with
    | some e => { status := .wrapError e, replaceCalls := [tags] }
    | none => { status := .needsRefresh, replaceCalls := [tags] }
  else
    { status := .done, replaceCalls := [] }

/-- The canonical tag list written by a replace call: the deduplicated
spec tags in sorted order. -/
def canonicalTagList (specTags : List String) : List String :=
  setSortedList (setNew specTags)

theorem setEqual_setNew_iff (a b : List String) :
    setEqual (setNew a) (setNew b) = true ↔ ∀ x, x ∈ a ↔ x ∈ b := by
  rw [setEqual_iff]
  constructor
  · intro h x
    rw [← mem_setNew a x, ← mem_setNew b x]
    exact h x
  · intro h x
    rw [mem_setNew, mem_setNew]
    exact h x

theorem mem_canonicalTagList (l : List String) (x : String) :
    x ∈ canonicalTagList l ↔ x ∈ l := by
  unfold canonicalTagList setSortedList
  rw [List.mem_insertionSort, mem_setNew]

/-- Lists with the same members have the same canonical tag list: the
replace-call argument is determined by the tag set alone. -/
theorem canonicalTagList_eq_of_same_members (a b : List String)
    (h : ∀ x, x ∈ a ↔ x ∈ b) : canonicalTagList a = canonicalTagList b := by
  unfold canonicalTagList setSortedList
  have hperm : List.Perm (setNew a) (setNew b) := by
    rw [List.perm_ext_iff_of_nodup (nodup_setNew a) (nodup_setNew b)]
    intro x
    rw [mem_setNew, mem_setNew]
    exact h x
  exact List.eq_of_perm_of_sorted
    (((List.perm_insertionSort _ _).trans hperm).trans
      (List.perm_insertionSort _ _).symm)
    (List.sorted_insertionSort _ _) (List.sorted_insertionSort _ _)

/-! ## The Port data model (api/v1alpha1, fields used by the port
controller's extractors) -/

/-- One entry of `Spec.Resource.Addresses`; the extractor reads its
`SubnetRef` field. -/
structure Address where
  subnetRef : String
deriving DecidableEq, Repr

/-- `Port.Spec.Resource`: the desired-state variant, with its named
references to other objects. `ProjectRef` is an optional field. -/
structure PortResourceSpec where
  networkRef : String
  addresses : List Address
  securityGroupRefs : List String
  projectRef : Option String
deriving DecidableEq, Repr

/-- `Port.Spec.Import.Filter`: references used to locate a pre-existing
external object. -/
structure PortFilter where
  networkRef : String
  projectRef : Option String
deriving DecidableEq, Repr

/-- `Port.Spec.Import`: the import variant, holding an optional filter. -/
structure PortImport where
  filter : Option PortFilter
deriving DecidableEq, Repr

/-- `Port.Spec`: either a resource variant or an import variant (both
optional pointers in the Go struct). -/
structure PortSpec where
  resource : Option PortResourceSpec
  imports : Option PortImport
deriving DecidableEq, Repr

/-- A Port object, restricted to the spec fields the controller's
dependency extractors read. -/
structure Port where
  spec : PortSpec
deriving DecidableEq, Repr

/-! ## Dependency relations (internal/controllers/port/controller.go) -/

/-- A dependency relation as declared by the port controller: index name,
extractor, and the optional guard data (finalizer token and field-owner
identity) carried only by deletion-guard relations. The
`internal/util/dependency` package itself is not part of the excerpt; this
descriptor records exactly the arguments the controller passes to its
constructors. -/
structure Dependency where
  indexName : String
  extractor : Port → List String
  guardFinalizer : Option String
  guardFieldOwner : Option String

/-- Modelled from the spec: `dependency.NewDeletionGuardDependency`
(package `internal/util/dependency`, not under src/) constructs a relation
that carries deletion-guard data: a finalizer token and an owner
identity. -/
def NewDeletionGuardDependency (indexName : String)
    (extractor : Port → List String) (finalizer fieldOwner : String) :
    Dependency :=
  { indexName := indexName, extractor := extractor,
    guardFinalizer := some finalizer, guardFieldOwner := some fieldOwner }

/-- Modelled from the spec: `dependency.NewDependency` (package
`internal/util/dependency`, not under src/) constructs an unguarded
relation: no finalizer token and no owner identity. -/
def NewDependency (indexName : String) (extractor : Port → List String) :
    Dependency :=
  { indexName := indexName, extractor := extractor,
    guardFinalizer := none, guardFieldOwner := none }

/-- The port controller's finalizer token. Modelled from the spec: its
value is declared outside the excerpt; only its identity matters here. -/
def finalizer : String := "openstack.k-orc.cloud/port"

/-- The port controller's field-owner identity. Modelled from the spec:
its value is declared outside the excerpt. -/
def externalObjectFieldOwner : String := "port.openstack.k-orc.cloud"

/-- `networkDependency`: guarded relation from Port to Network via
`Spec.Resource.NetworkRef`. -/
def networkDependency : Dependency :=
  NewDeletionGuardDependency "spec.resource.networkRef"
    (fun port =>
      match port.spec.resource with
      | none => []
      | some resource => [resource.networkRef])
    finalizer externalObjectFieldOwner

/-- `networkImportDependency`: unguarded relation from Port to Network via
`Spec.Import.Filter.NetworkRef`. -/
def networkImportDependency : Dependency :=
  NewDependency "spec.import.filter.networkRef"
    (fun port =>
      match port.spec.imports with
      | none => []
      | some resource =>
        match resource.filter with
        | none => []
        | some filter => [filter.networkRef])

/-- `subnetDependency`: guarded relation from Port to Subnet, one
reference per entry of `Spec.Resource.Addresses` (the Go code allocates a
slice of the addresses' length and fills it by index). -/
def subnetDependency : Dependency :=
  NewDeletionGuardDependency "spec.resource.addresses[].subnetRef"
    (fun port =>
      match port.spec.resource with
      | none => []
      | some resource =>
        List.ofFn (fun i : Fin resource.addresses.length =>
          (resource.addresses.get i).subnetRef))
    finalizer externalObjectFieldOwner

/-- `securityGroupDependency`: guarded relation from Port to
SecurityGroup, one reference per entry of `Spec.Resource.SecurityGroupRefs`
(slice of the refs' length, filled by index). -/
def securityGroupDependency : Dependency :=
  NewDeletionGuardDependency "spec.resource.securityGroupRefs"
    (fun port =>
      match port.spec.resource with
      | none => []
      | some resource =>
        List.ofFn (fun i : Fin resource.securityGroupRefs.length =>
          resource.securityGroupRefs.get i))
    finalizer externalObjectFieldOwner

/-- `projectDependency`: guarded relation from Port to Project via the
optional `Spec.Resource.ProjectRef`. -/
def projectDependency : Dependency :=
  NewDeletionGuardDependency "spec.resource.projectRef"
    (fun port =>
      match port.spec.resource with
      | none => []
      | some resource =>
        match resource.projectRef with
        | none => []
        | some projectRef => [projectRef])
    finalizer externalObjectFieldOwner

/-- `projectImportDependency`: unguarded relation from Port to Project via
the optional `Spec.Import.Filter.ProjectRef`. -/
def projectImportDependency : Dependency :=
  NewDependency "spec.import.filter.projectRef"
    (fun port =>
      match port.spec.imports with
      | none => []
      | some resource =>
        match resource.filter with
        | none => []
        | some filter =>
          match filter.projectRef with
          | none => []
          | some projectRef => [projectRef])

/-! ## Watches and the became-Available gate (SetupWithManager's builder
chain, lines 167-189 of controller.go) -/

/-- The Target kinds the port controller watches. -/
inductive TargetKind where
  | network
  | subnet
  | securityGroup
  | project
deriving DecidableEq, Repr

/-- One condition status of the `Available` condition. -/
inductive ConditionStatus where
  | condTrue
  | condFalse
  | condUnknown
deriving DecidableEq, Repr

/-- Modelled from the spec: `predicates.NewBecameAvailable` (package
`pkg/predicates`, not under src/) passes an update event only when the
Available condition transitions from not-True to True. -/
def becameAvailable (oldAvailable newAvailable : ConditionStatus) : Bool :=
  decide (oldAvailable ≠ ConditionStatus.condTrue) &&
    decide (newAvailable = ConditionStatus.condTrue)

/-- One `Watches(...)` registration in the builder chain: the watched
Target kind, the index name of the dependency whose `WatchEventHandler`
handles the events, and whether the watch is wrapped in a
`NewBecameAvailable` predicate. -/
structure Watch where
  target : TargetKind
  handlerIndexName : String
  hasBecameAvailableGate : Bool
deriving DecidableEq, Repr

/-- The six watches the port controller registers, in builder-chain
order. -/
def portWatches : List Watch :=
  [ { target := .network, handlerIndexName := networkDependency.indexName,
      hasBecameAvailableGate := true },
    { target := .network,
      handlerIndexName := networkImportDependency.indexName,
      hasBecameAvailableGate := true },
    { target := .subnet, handlerIndexName := subnetDependency.indexName,
      hasBecameAvailableGate := true },
    { target := .securityGroup,
      handlerIndexName := securityGroupDependency.indexName,
      hasBecameAvailableGate := true },
    { target := .project, handlerIndexName := projectDependency.indexName,
      hasBecameAvailableGate := true },
    { target := .project,
      handlerIndexName := projectImportDependency.indexName,
      hasBecameAvailableGate := true } ]

/-- Requests enqueued by one watch for one Target update event: the
referencing Sources are forwarded only when the watch has no gate or its
became-Available predicate passes. -/
def updateEventRequests (w : Watch)
    (oldAvailable newAvailable : ConditionStatus)
    (referencingSources : List String) : List String :=
  if !w.hasBecameAvailableGate || becameAvailable oldAvailable newAvailable
  then referencingSources
  else []

/-! ## SetupWithManager's error flow (controller.go lines 133-206) -/

/-- The fallible steps of `SetupWithManager`, in program order: the six
`WatchEventHandler` constructions (each aborts the function on error), the
eight calls joined by `errors.Join` (six dependency `AddToManager`s,
`credentialsDependency.AddToManager`, `AddCredentialsWatch`), then
`builder.Complete`. Each field injects that step's error outcome. -/
structure SetupOutcomes where
  networkHandlerErr : Option String
  networkImportHandlerErr : Option String
  subnetHandlerErr : Option String
  securityGroupHandlerErr : Option String
  projectHandlerErr : Option String
  projectImportHandlerErr : Option String
  networkAddErr : Option String
  networkImportAddErr : Option String
  subnetAddErr : Option String
  securityGroupAddErr : Option String
  projectAddErr : Option String
  projectImportAddErr : Option String
  credentialsAddErr : Option String
  credentialsWatchErr : Option String
  completeErr : Option String
deriving DecidableEq, Repr

/-- The error returned by `SetupWithManager`: a single handler failure
(first one aborts), the `errors.Join` of the registration failures, or the
`builder.Complete` error. -/
inductive SetupError where
  | handlerFailure (e : String)
  | registrationFailures (es : List String)
  | completeFailure (e : String)
deriving DecidableEq, Repr

/-- `errors.Join`: nil when all errors are nil, otherwise an error
wrapping every non-nil argument in order. -/
def errorsJoin (errs : List (Option String)) : Option (List String) :=
  match errs.filterMap id with
  | [] => none
  | es => some es

/-- The eight `errors.Join` arguments of controller.go lines 191-200, in
order. -/
def registrationErrs (s : SetupOutcomes) : List (Option String) :=
  [s.networkAddErr, s.networkImportAddErr, s.subnetAddErr,
   s.securityGroupAddErr, s.projectAddErr, s.projectImportAddErr,
   s.credentialsAddErr, s.credentialsWatchErr]

/-- `SetupWithManager`'s control flow over its fallible steps: each
`WatchEventHandler` error returns immediately; then the joined
registration errors are returned together if any is non-nil; then
`builder.Complete`'s error, if any, is returned. `none` is success. -/
def SetupWithManager (s : SetupOutcomes) : Option SetupError :=
  match s.networkHandlerErr with
  | some e => some (.handlerFailure e)
  | none =>
  match s.networkImportHandlerErr with
  | some e => some (.handlerFailure e)
  | none =>
  match s.subnetHandlerErr with
  | some e => some (.handlerFailure e)
  | none =>
  match s.securityGroupHandlerErr with
  | some e => some (.handlerFailure e)
  | none =>
  match s.projectHandlerErr with
  | some e => some (.handlerFailure e)
  | none =>
  match s.projectImportHandlerErr with
  | some e => some (.handlerFailure e)
  | none =>
  match errorsJoin (registrationErrs s) with
  | some es => some (.registrationFailures es)
  | none =>
  match s.completeErr with
  | some e => some (.completeFailure e)
  | none => none

/-! ## Deletion-guard safety (spec section 4.2)

Modelled from the spec: the deletion-guard machinery lives in
`internal/util/dependency`, which is not under src/. The model is a
transition system over one guarded Target: concurrent Source reconciles
add and remove guard records (each an atomic optimistic-concurrency
patch), the author may request deletion, and the Target's own reconcile
returns WaitingForDependency while any guard token remains, invoking the
external delete only once no guard record is left. A guard can only be
added while the object still exists (a patch against a purged object
fails). -/

/-- The state of one guarded Target: the owner identities currently
holding a guard record (the finalizer token is present iff this list is
non-empty), whether deletion has been requested, whether the external
resource has been deleted, and the count of external delete calls. -/
structure TargetState where
  guards : List String
  deletionRequested : Bool
  deleted : Bool
  deleteCalls : Nat
deriving DecidableEq, Repr

/-- The initial state of a Target: no guards, no deletion requested, the
external resource alive, zero delete calls. -/
def initTarget : TargetState :=
  { guards := [], deletionRequested := false, deleted := false,
    deleteCalls := 0 }

/-- One atomic step of the system around a guarded Target. Source
reconciles add or remove guard records; the author requests deletion; the
Target's reconcile either waits (guards remain) or performs the external
delete (no guard record left). -/
inductive GuardStep : TargetState → TargetState → Prop where
  | addGuard (owner : String) (s : TargetState) (h : s.deleted = false) :
      GuardStep s { s with guards := owner :: s.guards }
  | removeGuard (owner : String) (s : TargetState) :
      GuardStep s { s with guards := s.guards.erase owner }
  | requestDeletion (s : TargetState) :
      GuardStep s { s with deletionRequested := true }
  | reconcileWaiting (s : TargetState) (h₁ : s.deletionRequested = true)
      (h₂ : s.guards ≠ []) : GuardStep s s
  | reconcileDelete (s : TargetState) (h₁ : s.deletionRequested = true)
      (h₂ : s.guards = []) (h₃ : s.deleted = false) :
      GuardStep s { s with deleted := true,
                           deleteCalls := s.deleteCalls + 1 }

/-- A state reachable from the initial Target state by any interleaving of
steps. -/
def ReachableTarget (s : TargetState) : Prop :=
  Relation.ReflTransGen GuardStep initTarget s

/-- The invariant carried through every reachable state: once a delete
call has happened the object is deleted and no guard record remains. -/
theorem guard_invariant (s : TargetState) (h : ReachableTarget s) :
    s.deleteCalls = 0 ∨ (s.deleted = true ∧ s.guards = []) := by
  induction h with
  | refl => exact Or.inl rfl
  | tail _ hstep ih =>
      cases hstep with
      | addGuard owner t ht =>
          rcases ih with h0 | ⟨hd, _⟩
          · exact Or.inl h0
          · rw [ht] at hd; cases hd
      | removeGuard owner t =>
          rcases ih with h0 | ⟨hd, hg⟩
          · exact Or.inl h0
          · exact Or.inr ⟨hd, by simp [hg]⟩
      | requestDeletion t =>
          rcases ih with h0 | ⟨hd, hg⟩
          · exact Or.inl h0
          · exact Or.inr ⟨hd, hg⟩
      | reconcileWaiting t h₁ h₂ => exact ih
      | reconcileDelete t h₁ h₂ h₃ => exact Or.inr ⟨rfl, h₂⟩

/-! ## Shared lemmas about ReconcileTags -/

theorem reconcileTags_of_equal (s o : List String) (r : Option String)
    (h : ∀ x, x ∈ s ↔ x ∈ o) :
    ReconcileTags s o r = { status := .done, replaceCalls := [] } := by
  have heq : setEqual (setNew s) (setNew o) = true :=
    (setEqual_setNew_iff s o).2 h
  simp [ReconcileTags, heq]

theorem reconcileTags_of_not_equal (s o : List String) (r : Option String)
    (h : ¬ ∀ x, x ∈ s ↔ x ∈ o) :
    ReconcileTags s o r =
      match r with
      | some e =>
        { status := .wrapError e, replaceCalls := [canonicalTagList s] }
      | none =>
        { status := .needsRefresh,
          replaceCalls := [canonicalTagList s] } := by
  have hne : setEqual (setNew s) (setNew o) = false := by
    rw [Bool.eq_false_iff]
    intro hc
    exact h ((setEqual_setNew_iff s o).1 hc)
  cases r <;> simp [ReconcileTags, canonicalTagList, hne]

/-! ## Claim theorems: tag reconciliation -/

/-- Claim C1: for every desired and observed tag list whose underlying
sets are equal (order and duplication ignored), ReconcileTags returns a
success status (the nil return, Done) and never invokes
ReplaceAllAttributesTags, whatever outcome the external call would have
had. -/
theorem reconcileTags_equal_sets_done_no_calls
    (specTags observedTags : List String) (replaceErr : Option String)
    (h : ∀ x, x ∈ specTags ↔ x ∈ observedTags) :
    (ReconcileTags specTags observedTags replaceErr).status = .done ∧
    (ReconcileTags specTags observedTags replaceErr).replaceCalls = [] := by
  rw [reconcileTags_of_equal specTags observedTags replaceErr h]
  exact ⟨rfl, rfl⟩

/-- Witness for C1: spec tags a,b against observed tags b,a (scenario D):
set-equal despite order, so Done with zero replace calls. -/
theorem reconcileTags_equal_sets_done_no_calls_witness :
    (ReconcileTags ["a", "b"] ["b", "a"] none).status = .done ∧
    (ReconcileTags ["a", "b"] ["b", "a"] none).replaceCalls = [] :=
  reconcileTags_equal_sets_done_no_calls ["a", "b"] ["b", "a"] none
    (by intro x; constructor <;> (intro hx; simp at hx ⊢; tauto))

/-- Claim C2: for every desired and observed tag list whose underlying
sets differ, ReconcileTags issues exactly one ReplaceAllAttributesTags
call whose tag argument is the desired set in sorted canonical order —
the same argument for any reordering of the desired list (and the
observed list does not appear in the argument at all) — and when the call
succeeds it returns NeedsRefresh. -/
theorem reconcileTags_different_sets_one_canonical_call
    (specTags observedTags : List String)
    (h : ¬ ∀ x, x ∈ specTags ↔ x ∈ observedTags) :
    (∀ replaceErr, (ReconcileTags specTags observedTags replaceErr).replaceCalls
        = [canonicalTagList specTags]) ∧
    (ReconcileTags specTags observedTags none).status = .needsRefresh ∧
    (∀ specTags2, (∀ x, x ∈ specTags2 ↔ x ∈ specTags) →
        canonicalTagList specTags2 = canonicalTagList specTags) := by
  refine ⟨fun replaceErr => ?_, ?_, ?_⟩
  · rw [reconcileTags_of_not_equal specTags observedTags replaceErr h]
    cases replaceErr <;> rfl
  · rw [reconcileTags_of_not_equal specTags observedTags none h]
  · exact fun specTags2 h2 => canonicalTagList_eq_of_same_members _ _ h2

/-- Witness for C2: spec tags c,a against observed a,b (scenario E, spec
reordered): one replace call with canonical argument a,c; NeedsRefresh. -/
theorem reconcileTags_different_sets_one_canonical_call_witness :
    (ReconcileTags ["c", "a"] ["a", "b"] none).replaceCalls = [["a", "c"]] ∧
    (ReconcileTags ["c", "a"] ["a", "b"] none).status = .needsRefresh := by
  have hne : ¬ ∀ x, x ∈ ["c", "a"] ↔ x ∈ ["a", "b"] := fun hc =>
    absurd ((hc "c").1 (by decide)) (by decide)
  have h := reconcileTags_different_sets_one_canonical_call
    ["c", "a"] ["a", "b"] hne
  refine ⟨(h.1 none).trans ?_, h.2.1⟩
  decide

/-- Claim C3: idempotent convergence. When the first run of ReconcileTags
writes (the sets differed), a second run whose observed tags are exactly
the list written by the first run issues zero calls and succeeds, so the
two runs together issue exactly one replace call. -/
theorem reconcileTags_idempotent_convergence
    (specTags observedTags written : List String) (replaceErr : Option String)
    (h : ¬ ∀ x, x ∈ specTags ↔ x ∈ observedTags)
    (hw : (ReconcileTags specTags observedTags none).replaceCalls = [written]) :
    ReconcileTags specTags written replaceErr =
      { status := .done, replaceCalls := [] } ∧
    (ReconcileTags specTags observedTags none).replaceCalls.length +
      (ReconcileTags specTags written replaceErr).replaceCalls.length = 1 := by
  have hcanon : written = canonicalTagList specTags := by
    rw [reconcileTags_of_not_equal specTags observedTags none h] at hw
    simpa using hw.symm
  have hsecond : ReconcileTags specTags written replaceErr =
      { status := .done, replaceCalls := [] } := by
    apply reconcileTags_of_equal
    intro x
    rw [hcanon, mem_canonicalTagList]
  refine ⟨hsecond, ?_⟩
  rw [reconcileTags_of_not_equal specTags observedTags none h, hsecond]
  rfl

/-- Witness for C3: first run on spec a,c vs observed a,b writes a,c; the
second run on observed a,c is Done with no call; one call in total. -/
theorem reconcileTags_idempotent_convergence_witness :
    ReconcileTags ["a", "c"] ["a", "c"] none =
      { status := .done, replaceCalls := [] } ∧
    (ReconcileTags ["a", "c"] ["a", "b"] none).replaceCalls.length +
      (ReconcileTags ["a", "c"] ["a", "c"] none).replaceCalls.length = 1 :=
  reconcileTags_idempotent_convergence ["a", "c"] ["a", "b"] ["a", "c"] none
    (fun hc => absurd ((hc "c").1 (by decide)) (by decide)) (by decide)

/-- Claim C10: ReconcileTags returns NeedsRefresh exactly when the
replace call was invoked and succeeded; when the sets differ and the call
fails, the wrapped error is returned instead. -/
theorem reconcileTags_needsRefresh_iff_successful_call
    (specTags observedTags : List String) (replaceErr : Option String) :
    ((ReconcileTags specTags observedTags replaceErr).status = .needsRefresh ↔
      (ReconcileTags specTags observedTags replaceErr).replaceCalls ≠ [] ∧
        replaceErr = none) ∧
    (¬ (∀ x, x ∈ specTags ↔ x ∈ observedTags) → ∀ e,
      (ReconcileTags specTags observedTags (some e)).status = .wrapError e) := by
  constructor
  · by_cases h : ∀ x, x ∈ specTags ↔ x ∈ observedTags
    · rw [reconcileTags_of_equal specTags observedTags replaceErr h]
      simp
    · rw [reconcileTags_of_not_equal specTags observedTags replaceErr h]
      cases replaceErr <;> simp
  · intro h e
    rw [reconcileTags_of_not_equal specTags observedTags (some e) h]

/-- Witness for C10: spec a,c vs observed a,b with a failing replace call
returns the wrapped error. -/
theorem reconcileTags_needsRefresh_iff_successful_call_witness :
    (ReconcileTags ["a", "c"] ["a", "b"] (some "boom")).status =
      .wrapError "boom" :=
  (reconcileTags_needsRefresh_iff_successful_call
      ["a", "c"] ["a", "b"] (some "boom")).2
    (fun hc => absurd ((hc "c").1 (by decide)) (by decide)) "boom"

/-! ## Claim theorems: port controller -/

/-- Claim C4: setup-time registration failures are aggregated. When the
handler constructions succeed and any of the dependency registrations
fail, SetupWithManager returns the single joined error carrying every
failing registration's error, not just the first. -/
theorem setupWithManager_aggregates_registration_failures (s : SetupOutcomes)
    (h1 : s.networkHandlerErr = none) (h2 : s.networkImportHandlerErr = none)
    (h3 : s.subnetHandlerErr = none) (h4 : s.securityGroupHandlerErr = none)
    (h5 : s.projectHandlerErr = none) (h6 : s.projectImportHandlerErr = none)
    (hfail : (registrationErrs s).filterMap id ≠ []) :
    SetupWithManager s =
      some (.registrationFailures ((registrationErrs s).filterMap id)) ∧
    ∀ e, some e ∈ registrationErrs s →
      e ∈ (registrationErrs s).filterMap id := by
  constructor
  · unfold SetupWithManager
    rw [h1, h2, h3, h4, h5, h6]
    unfold errorsJoin
    cases hlist : (registrationErrs s).filterMap id with
    | nil => exact absurd hlist hfail
    | cons a t => rfl
  · intro e he
    exact List.mem_filterMap.2 ⟨some e, he, rfl⟩

/-- A setup run in which the network and subnet registrations both fail
and everything else succeeds. -/
def setupFailuresSample : SetupOutcomes :=
  { networkHandlerErr := none, networkImportHandlerErr := none,
    subnetHandlerErr := none, securityGroupHandlerErr := none,
    projectHandlerErr := none, projectImportHandlerErr := none,
    networkAddErr := some "duplicate index spec.resource.networkRef",
    networkImportAddErr := none,
    subnetAddErr := some "duplicate index spec.resource.addresses[].subnetRef",
    securityGroupAddErr := none, projectAddErr := none,
    projectImportAddErr := none, credentialsAddErr := none,
    credentialsWatchErr := none, completeErr := none }

/-- Witness for C4: with two failing registrations, the returned error
carries both. -/
theorem setupWithManager_aggregates_registration_failures_witness :
    SetupWithManager setupFailuresSample =
      some (.registrationFailures
        ["duplicate index spec.resource.networkRef",
         "duplicate index spec.resource.addresses[].subnetRef"]) ∧
    ∀ e, some e ∈ registrationErrs setupFailuresSample →
      e ∈ (registrationErrs setupFailuresSample).filterMap id := by
  have h := setupWithManager_aggregates_registration_failures
    setupFailuresSample rfl rfl rfl rfl rfl rfl (by decide)
  exact ⟨h.1.trans (by decide), h.2⟩

/-- Claim C5: for Network and Project, the Port controller declares a
guarded direct-reference relation and an unguarded import-filter relation
with distinct index names, registers a distinct watch handler for each,
and the import-filter relations carry no finalizer token and no owner
identity. -/
theorem port_dual_relations_distinct_and_import_unguarded :
    networkDependency.indexName = "spec.resource.networkRef" ∧
    networkImportDependency.indexName = "spec.import.filter.networkRef" ∧
    networkDependency.indexName ≠ networkImportDependency.indexName ∧
    projectDependency.indexName = "spec.resource.projectRef" ∧
    projectImportDependency.indexName = "spec.import.filter.projectRef" ∧
    projectDependency.indexName ≠ projectImportDependency.indexName ∧
    networkDependency.guardFinalizer = some finalizer ∧
    projectDependency.guardFinalizer = some finalizer ∧
    networkImportDependency.guardFinalizer = none ∧
    networkImportDependency.guardFieldOwner = none ∧
    projectImportDependency.guardFinalizer = none ∧
    projectImportDependency.guardFieldOwner = none ∧
    (portWatches.filter
        (fun w => decide (w.target = TargetKind.network))).map
        Watch.handlerIndexName =
      [networkDependency.indexName, networkImportDependency.indexName] ∧
    (portWatches.filter
        (fun w => decide (w.target = TargetKind.project))).map
        Watch.handlerIndexName =
      [projectDependency.indexName, projectImportDependency.indexName] := by
  refine ⟨rfl, rfl, by decide, rfl, rfl, by decide, rfl, rfl, rfl, rfl,
    rfl, rfl, by decide, by decide⟩

/-- Claim C6: every watch the port controller registers is gated by the
became-Available predicate, so an update event whose Available condition
does not transition from not-True to True forwards nothing and enqueues
no reconcile request. -/
theorem port_watches_suppress_non_became_available_updates (w : Watch)
    (hw : w ∈ portWatches) (oldAvailable newAvailable : ConditionStatus)
    (h : ¬ (oldAvailable ≠ ConditionStatus.condTrue ∧
        newAvailable = ConditionStatus.condTrue))
    (referencingSources : List String) :
    updateEventRequests w oldAvailable newAvailable referencingSources
      = [] := by
  have hgate : w.hasBecameAvailableGate = true := by
    fin_cases hw <;> rfl
  have hba : becameAvailable oldAvailable newAvailable = false := by
    rw [Bool.eq_false_iff]
    intro hc
    apply h
    simpa [becameAvailable] using hc
  unfold updateEventRequests
  rw [hgate, hba]
  rfl

/-- Witness for C6: an update of a Network that stays Available (True to
True) is suppressed by the first watch. -/
theorem port_watches_suppress_non_became_available_updates_witness :
    updateEventRequests
      { target := .network, handlerIndexName := "spec.resource.networkRef",
        hasBecameAvailableGate := true }
      .condTrue .condTrue ["port-1"] = [] :=
  port_watches_suppress_non_became_available_updates
    { target := .network, handlerIndexName := "spec.resource.networkRef",
      hasBecameAvailableGate := true }
    (by decide) .condTrue .condTrue (by decide) ["port-1"]

/-- Claim C7: deletion-guard safety. In every state reachable by any
interleaving of concurrent Source guard updates, deletion requests and
Target reconciles, a Target that still carries a guard token has an
external delete call count of zero. -/
theorem guarded_target_never_deleted_while_guarded (s : TargetState)
    (h : ReachableTarget s) (hg : s.guards ≠ []) : s.deleteCalls = 0 := by
  rcases guard_invariant s h with h0 | ⟨_, hempty⟩
  · exact h0
  · exact absurd hempty hg

/-- The Target state right after one Source acquired a guard on a fresh
Target. -/
def guardedSample : TargetState :=
  { guards := ["port-owner"], deletionRequested := false, deleted := false,
    deleteCalls := 0 }

/-- Witness for C7: after a Source acquires a guard on a fresh Target,
the state is reachable, guarded, and has zero delete calls. -/
theorem guarded_target_never_deleted_while_guarded_witness :
    ReachableTarget guardedSample ∧ guardedSample.deleteCalls = 0 := by
  have hr : ReachableTarget guardedSample :=
    Relation.ReflTransGen.single
      (GuardStep.addGuard "port-owner" initTarget rfl)
  exact ⟨hr,
    guarded_target_never_deleted_while_guarded _ hr (by decide)⟩

/-- Claim C8: a Port with a nil Spec.Resource yields an empty reference
list from every guarded extractor, and a Port with a nil Spec.Import or
nil Spec.Import.Filter yields an empty reference list from both
import-filter extractors. -/
theorem port_nil_spec_extractors_empty (p : Port) :
    (p.spec.resource = none →
      networkDependency.extractor p = [] ∧
      subnetDependency.extractor p = [] ∧
      securityGroupDependency.extractor p = [] ∧
      projectDependency.extractor p = []) ∧
    ((p.spec.imports = none ∨
        ∃ i, p.spec.imports = some i ∧ i.filter = none) →
      networkImportDependency.extractor p = [] ∧
      projectImportDependency.extractor p = []) := by
  constructor
  · intro h
    refine ⟨?_, ?_, ?_, ?_⟩ <;>
      simp [networkDependency, subnetDependency, securityGroupDependency,
        projectDependency, NewDeletionGuardDependency, h]
  · rintro (h | ⟨i, hi, hf⟩)
    · exact ⟨by simp [networkImportDependency, NewDependency, h],
        by simp [projectImportDependency, NewDependency, h]⟩
    · exact ⟨by simp [networkImportDependency, NewDependency, hi, hf],
        by simp [projectImportDependency, NewDependency, hi, hf]⟩

/-- Witness for C8: the Port with neither resource nor import spec
extracts no network reference and no import-filter network reference. -/
theorem port_nil_spec_extractors_empty_witness :
    networkDependency.extractor ⟨⟨none, none⟩⟩ = [] ∧
    networkImportDependency.extractor ⟨⟨none, none⟩⟩ = [] :=
  ⟨((port_nil_spec_extractors_empty ⟨⟨none, none⟩⟩).1 rfl).1,
   ((port_nil_spec_extractors_empty ⟨⟨none, none⟩⟩).2 (Or.inl rfl)).1⟩

/-- Claim C9: with a non-nil Spec.Resource, the subnet extractor returns
exactly one subnet name per Addresses entry in order, and the
security-group extractor returns exactly one name per SecurityGroupRefs
entry in order. -/
theorem port_resource_extractors_one_per_entry (p : Port)
    (r : PortResourceSpec) (h : p.spec.resource = some r) :
    subnetDependency.extractor p = r.addresses.map Address.subnetRef ∧
    (subnetDependency.extractor p).length = r.addresses.length ∧
    securityGroupDependency.extractor p = r.securityGroupRefs ∧
    (securityGroupDependency.extractor p).length
      = r.securityGroupRefs.length := by
  have hs : subnetDependency.extractor p
      = r.addresses.map Address.subnetRef := by
    simp only [subnetDependency, NewDeletionGuardDependency, h]
    exact List.ofFn_getElem_eq_map r.addresses Address.subnetRef
  have hg : securityGroupDependency.extractor p = r.securityGroupRefs := by
    simp only [securityGroupDependency, NewDeletionGuardDependency, h]
    exact List.ofFn_get r.securityGroupRefs
  exact ⟨hs, by rw [hs, List.length_map], hg, by rw [hg]⟩

/-- A Port resource spec with two addresses and one security group. -/
def sampleResource : PortResourceSpec :=
  { networkRef := "net-a",
    addresses := [{ subnetRef := "sub-1" }, { subnetRef := "sub-2" }],
    securityGroupRefs := ["sg-1"], projectRef := none }

/-- A Port carrying `sampleResource` and no import spec. -/
def samplePort : Port := ⟨⟨some sampleResource, none⟩⟩

/-- Witness for C9: two addresses yield exactly the two subnet names in
order; one security group ref yields exactly that name. -/
theorem port_resource_extractors_one_per_entry_witness :
    subnetDependency.extractor samplePort = ["sub-1", "sub-2"] ∧
    securityGroupDependency.extractor samplePort = ["sg-1"] := by
  have h := port_resource_extractors_one_per_entry samplePort
    sampleResource rfl
  exact ⟨h.1.trans (by decide), h.2.2.1.trans rfl⟩

end OrcPort
